import Mathlib

/-!
# Verification of the Crypto-Alert-Bot aggregation-detection-dispatch pipeline

Shallow embedding of the core of the repository:

* `src/price_monitor.py` — `PriceMonitor.fetch_all_prices`,
  `PriceMonitor.find_arbitrage` and the quote table they share;
* `src/bot.py` — `CryptoAlertBot._check_price_changes`;
* `src/alert_manager.py` — `AlertManager._is_duplicate`,
  `AlertManager.send_alert`, `AlertManager.get_alert_stats`;
* `src/saas_main.py` — the per-tenant body of `SaaSService._monitoring_loop`.

Conventions of the embedding:

* Python `float` prices and percentages are modelled as `ℚ` (the arithmetic
  in the claims is exact rational arithmetic on the inputs used here).
* Wall-clock timestamps are passed explicitly as `Int` Unix seconds; the
  `%Y%m%d` calendar-day tag used in alert ids is modelled by the day index
  `t / 86400` (all that matters for the claims is that two timestamps get
  the same tag exactly when they fall on the same calendar day).
* Python `dict`s are modelled as association lists in insertion order with
  unique keys; `d[k] = v` keeps the position of an existing key and appends
  a fresh key at the end, exactly as Python dictionaries do.
* Network effects are modelled by passing each adapter's outcome
  (`Except`, since `fetch_all_prices` wraps each adapter call in
  `try/except`) as explicit data.
-/

/-- Python `d.get(k)` / `k in d` on an insertion-ordered dict modelled as an
association list: the value at the first (and, with unique keys, only)
occurrence of the key. -/
def dictGet {β : Type} (k : String) : List (String × β) → Option β
  | [] => none
  | (k', v) :: rest => if k' = k then some v else dictGet k rest

/-- Python `d[k] = v` on an insertion-ordered dict: overwrite in place when
the key is present, append at the end when it is absent. -/
def dictInsert {β : Type} : List (String × β) → String → β → List (String × β)
  | [], k, v => [(k, v)]
  | (k', v') :: rest, k, v =>
    if k' = k then (k, v) :: rest else (k', v') :: dictInsert rest k v

/-- `PriceData` from `src/price_monitor.py` (the dataclass), minus the
ambient wall-clock `timestamp` string, which no detection logic reads.
`bid`/`ask` are `Option` because the dataclass defaults them to `None`. -/
structure PriceData where
  symbol : String
  price : ℚ
  bid : Option ℚ := none
  ask : Option ℚ := none
  volume_24h : Option ℚ := none
  change_24h : Option ℚ := none
  exchange : String
deriving DecidableEq, Repr

/-- The quote table `self.prices : Dict[str, Dict[str, PriceData]]` of
`PriceMonitor`: symbol ↦ exchange name ↦ quote, both levels in insertion
order. `fetch_all_prices` also builds its returned `all_prices` table in
this shape. -/
abbrev QuoteTable : Type := List (String × List (String × PriceData))

/-- Two-level read `table[symbol][exchange]`. -/
def tableGet (t : QuoteTable) (symbol exchange : String) : Option PriceData :=
  match dictGet symbol t with
  | none => none
  | some inner => dictGet exchange inner

/-- Two-level write `table[symbol][exchange] = pd`; `defaultdict(dict)`
creates the inner dict when the symbol is new. -/
def tableInsert (t : QuoteTable) (symbol exchange : String) (pd : PriceData) :
    QuoteTable :=
  dictInsert t symbol (dictInsert ((dictGet symbol t).getD []) exchange pd)

/-- The inner loop of `fetch_all_prices` for one adapter that returned
`quotes`: `for symbol, price_data in prices.items(): t[symbol][name] = pd`. -/
def mergeQuotes (t : QuoteTable) (exchangeName : String)
    (quotes : List (String × PriceData)) : QuoteTable :=
  quotes.foldl (fun acc q => tableInsert acc q.1 exchangeName q.2) t

/-- `PriceMonitor.fetch_all_prices` (src/price_monitor.py:221-239).
`adapterResults` lists, in the iteration order of `self.exchanges`, each
adapter name together with the outcome of `fetch_func(symbols)`: the
per-adapter `try/except` turns a raised exception into a skipped adapter
(`Except.error`), and a successful call yields that adapter's
symbol-keyed results.  Returns the freshly built `all_prices` table and
the updated cumulative `self.prices` table — the code writes every quote
into both and never clears `self.prices`. -/
def fetch_all_prices (selfPrices : QuoteTable)
    (adapterResults : List (String × Except String (List (String × PriceData)))) :
    QuoteTable × QuoteTable :=
  adapterResults.foldl
    (fun acc ar =>
      match ar.2 with
      | Except.error _ => acc
      | Except.ok quotes => (mergeQuotes acc.1 ar.1 quotes, mergeQuotes acc.2 ar.1 quotes))
    ([], selfPrices)

/-- `ArbitrageOpportunity` from `src/price_monitor.py`, minus the ambient
wall-clock `timestamp` string. -/
structure ArbitrageOpportunity where
  symbol : String
  buy_exchange : String
  sell_exchange : String
  buy_price : ℚ
  sell_price : ℚ
  profit_pct : ℚ
  profit_usd : ℚ
deriving DecidableEq, Repr

/-- `bids = [(ex, pd.bid) for ex, pd in exchange_prices.items() if pd.bid]`:
Python truthiness drops both `None` and `0.0` bids. -/
def bidsOf (data : List (String × PriceData)) : List (String × ℚ) :=
  data.filterMap (fun q =>
    match q.2.bid with
    | none => none
    | some b => if b = 0 then none else some (q.1, b))

/-- `asks = [(ex, pd.ask) for ex, pd in exchange_prices.items() if pd.ask]`. -/
def asksOf (data : List (String × PriceData)) : List (String × ℚ) :=
  data.filterMap (fun q =>
    match q.2.ask with
    | none => none
    | some a => if a = 0 then none else some (q.1, a))

/-- Python `max(l, key=lambda x: x[1])` starting from `best`: keeps the
first element attaining the maximum (replaces only on strict increase). -/
def maxBySnd : (String × ℚ) → List (String × ℚ) → (String × ℚ)
  | best, [] => best
  | best, x :: xs => maxBySnd (if best.2 < x.2 then x else best) xs

/-- Python `min(l, key=lambda x: x[1])` starting from `best`: keeps the
first element attaining the minimum. -/
def minBySnd : (String × ℚ) → List (String × ℚ) → (String × ℚ)
  | best, [] => best
  | best, x :: xs => minBySnd (if x.2 < best.2 then x else best) xs

/-- The body of the `for symbol in symbols` loop of
`PriceMonitor.find_arbitrage` (src/price_monitor.py:254-291): the
opportunity appended for one symbol, if any. -/
def checkSymbol (prices : QuoteTable) (min_profit_pct : ℚ) (symbol : String) :
    Option ArbitrageOpportunity :=
  match dictGet symbol prices with
  | none => none
  | some exchange_prices =>
    if exchange_prices.length < 2 then none
    else
      match bidsOf exchange_prices, asksOf exchange_prices with
      | b :: bs, a :: as =>
        let best_bid := maxBySnd b bs
        let best_ask := minBySnd a as
        let buy_price := best_ask.2
        let sell_price := best_bid.2
        if buy_price < sell_price then
          let profit_pct := (sell_price - buy_price) / buy_price * 100
          if min_profit_pct ≤ profit_pct then
            some { symbol := symbol, buy_exchange := best_ask.1,
                   sell_exchange := best_bid.1, buy_price := buy_price,
                   sell_price := sell_price, profit_pct := profit_pct,
                   profit_usd := sell_price - buy_price }
          else none
        else none
      | _, _ => none

/-- Descending-profit order used by
`sorted(opportunities, key=lambda x: x.profit_pct, reverse=True)`. -/
def profitGe (a b : ArbitrageOpportunity) : Prop := b.profit_pct ≤ a.profit_pct

instance : DecidableRel profitGe := fun a b =>
  inferInstanceAs (Decidable (b.profit_pct ≤ a.profit_pct))

instance : IsTotal ArbitrageOpportunity profitGe :=
  ⟨fun a b => (le_total b.profit_pct a.profit_pct).imp id id⟩

instance : IsTrans ArbitrageOpportunity profitGe :=
  ⟨fun _ _ _ hab hbc => le_trans hbc hab⟩

/-- `PriceMonitor.find_arbitrage` (src/price_monitor.py:241-293), reading
the cumulative table `self.prices` passed as `prices`.  Python's `sorted`
with `reverse=True` is a stable descending sort, which (stable sorts being
unique) is `List.insertionSort profitGe`. -/
def find_arbitrage (prices : QuoteTable) (symbols : List String)
    (min_profit_pct : ℚ) : List ArbitrageOpportunity :=
  List.insertionSort profitGe (symbols.filterMap (checkSymbol prices min_profit_pct))

/-! ## Price-change detection (`CryptoAlertBot._check_price_changes`) -/

/-- The argument bundle of the `send_price_alert` call that
`_check_price_changes` makes when a change crosses the threshold. -/
structure PriceChangeEvent where
  symbol : String
  current_price : ℚ
  change_pct : ℚ
  threshold_pct : ℚ
deriving DecidableEq, Repr

/-- `avg_price = sum(d.price for d in exchange_data.values()) / len(exchange_data)`. -/
def avgPrice (data : List (String × PriceData)) : ℚ :=
  (data.map (fun q => q.2.price)).sum / data.length

/-- One iteration of the `for symbol, exchange_data in prices.items()`
loop of `_check_price_changes`: `continue` on empty exchange data;
otherwise emit when a baseline exists and the absolute percent change
meets the threshold (`>=`), and unconditionally overwrite the baseline. -/
def priceStep (threshold : ℚ)
    (acc : List PriceChangeEvent × List (String × ℚ))
    (entry : String × List (String × PriceData)) :
    List PriceChangeEvent × List (String × ℚ) :=
  if entry.2 = [] then acc
  else
    let avg := avgPrice entry.2
    let events :=
      match dictGet entry.1 acc.2 with
      | none => acc.1
      | some old_price =>
        let change_pct := (avg - old_price) / old_price * 100
        if threshold ≤ |change_pct| then
          acc.1 ++ [{ symbol := entry.1, current_price := avg,
                      change_pct := change_pct, threshold_pct := threshold }]
        else acc.1
    (events, dictInsert acc.2 entry.1 avg)

/-- `CryptoAlertBot._check_price_changes` (src/bot.py:113-134), as a pure
state transformer: given the fetched table, the rolling
`self.previous_prices` baseline and `self.price_change_threshold`, it
returns the emitted alerts (in table iteration order) and the updated
baseline.  The baseline write `self.previous_prices[symbol] = avg_price`
is unconditional for every symbol whose exchange data is nonempty; a
symbol with empty data is skipped entirely (`continue`). -/
def check_price_changes (prices : QuoteTable)
    (previous_prices : List (String × ℚ)) (threshold : ℚ) :
    List PriceChangeEvent × List (String × ℚ) :=
  prices.foldl (priceStep threshold) ([], previous_prices)

/-! ## Alert manager (`src/alert_manager.py`) -/

/-- `AlertType`, with `value` the Python enum's string value. -/
inductive AlertType where
  | price_change
  | arbitrage
  | whale_movement
  | price_target
  | polymarket_divergence
deriving DecidableEq, Repr

def AlertType.value : AlertType → String
  | .price_change => "price_change"
  | .arbitrage => "arbitrage"
  | .whale_movement => "whale"
  | .price_target => "price_target"
  | .polymarket_divergence => "polymarket"

/-- The `Alert` dataclass.  `data` (an opaque pass-through payload dict)
is modelled as a string; `timestamp` is the Unix second at creation. -/
structure Alert where
  id : String
  type : AlertType
  symbol : String
  message : String
  data : String
  severity : String
  timestamp : Int
  acknowledged : Bool := false
deriving DecidableEq, Repr

/-- The state of an `AlertManager`: the two configured-or-not notifier
sinks (only `is_configured()` matters to the dispatch logic), the cooldown
ledger `self.alert_history` (alert id ↦ last-sent Unix second), the
append-only `self.sent_alerts` log, and how many observer callbacks are
registered (their identity never matters, only whether the list is empty). -/
structure AlertManager where
  telegram_configured : Bool
  discord_configured : Bool
  cooldown_minutes : Int
  alert_history : List (String × Int)
  sent_alerts : List Alert
  num_callbacks : Nat
deriving DecidableEq, Repr

/-- The calendar-day tag `datetime.now().strftime('%Y%m%d')`: two
timestamps produce the same tag exactly when they are on the same day. -/
def dayOf (t : Int) : Int := t / 86400

/-- `AlertManager._generate_alert_id` (src/alert_manager.py:202-204):
`f"{alert_type.value}_{symbol}_{key}_{day}"`. -/
def generate_alert_id (alert_type : AlertType) (symbol key : String)
    (now : Int) : String :=
  alert_type.value ++ "_" ++ symbol ++ "_" ++ key ++ "_" ++ toString (dayOf now)

/-- `AlertManager._is_duplicate` (src/alert_manager.py:206-214): a
duplicate is an id present in `self.alert_history` whose last-sent time is
strictly within the cooldown window of `now`. -/
def is_duplicate (m : AlertManager) (alert_id : String) (now : Int) : Bool :=
  match dictGet alert_id m.alert_history with
  | none => false
  | some last_sent => decide (now - last_sent < m.cooldown_minutes * 60)

/-- What one `send_alert` call did: its return value, the updated manager
state, and which effects ran. -/
structure SendAlertResult where
  retval : Bool
  state : AlertManager
  suppressed : Bool
  telegram_invoked : Bool
  discord_invoked : Bool
  callbacks_invoked : Nat
  console_fallback : Bool
deriving DecidableEq, Repr

/-- `AlertManager.send_alert` (src/alert_manager.py:216-291).  `now` is
the wall clock of the call; `telegram_delivers` / `discord_delivers` are
the outcomes of the two sinks' network sends (where invoked).  The
suppressed branch returns `False` before the alert is created, tracked or
dispatched; otherwise the history is upserted, the alert appended to the
log, the configured sinks invoked, every callback invoked, and — when no
sink reported success and no callback exists — the console fallback prints
the alert and the call returns `True`. -/
def send_alert (m : AlertManager) (alert_type : AlertType)
    (symbol message data severity : String) (dedup_key : Option String)
    (now : Int) (telegram_delivers discord_delivers : Bool) :
    SendAlertResult :=
  let key := dedup_key.getD (severity ++ "_" ++ toString now)
  let alert_id := generate_alert_id alert_type symbol key now
  if dedup_key.isSome && is_duplicate m alert_id now then
    { retval := false, state := m, suppressed := true,
      telegram_invoked := false, discord_invoked := false,
      callbacks_invoked := 0, console_fallback := false }
  else
    let alert : Alert :=
      { id := alert_id, type := alert_type, symbol := symbol,
        message := message, data := data, severity := severity,
        timestamp := now }
    let m' : AlertManager :=
      { m with alert_history := dictInsert m.alert_history alert_id now,
               sent_alerts := m.sent_alerts ++ [alert] }
    let success := (m.telegram_configured && telegram_delivers) ||
      (m.discord_configured && discord_delivers)
    if !success && m.num_callbacks == 0 then
      { retval := true, state := m', suppressed := false,
        telegram_invoked := m.telegram_configured,
        discord_invoked := m.discord_configured,
        callbacks_invoked := m.num_callbacks, console_fallback := true }
    else
      { retval := success, state := m', suppressed := false,
        telegram_invoked := m.telegram_configured,
        discord_invoked := m.discord_configured,
        callbacks_invoked := m.num_callbacks, console_fallback := false }

/-- Increment the count of `k` in a Python dict of counters:
`d[k] = d.get(k, 0) + 1`. -/
def bumpCount (d : List (String × Nat)) (k : String) : List (String × Nat) :=
  dictInsert d k ((dictGet k d).getD 0 + 1)

/-- The statistics record returned by `AlertManager.get_alert_stats`. -/
structure AlertStats where
  total_alerts : Nat
  by_type : List (String × Nat)
  by_severity : List (String × Nat)
  last_24h : Nat
deriving DecidableEq, Repr

/-- `AlertManager.get_alert_stats` (src/alert_manager.py:409-425), a pure
derived read of `self.sent_alerts` at wall clock `now`. -/
def get_alert_stats (m : AlertManager) (now : Int) : AlertStats :=
  { total_alerts := m.sent_alerts.length,
    by_type := m.sent_alerts.foldl (fun d a => bumpCount d a.type.value) [],
    by_severity := m.sent_alerts.foldl (fun d a => bumpCount d a.severity) [],
    last_24h := (m.sent_alerts.filter
      (fun a => decide (now - 86400 < a.timestamp))).length }

/-! ## The SaaS monitoring tick (`SaaSService._monitoring_loop`) -/

/-- The per-tenant section of one iteration of
`SaaSService._monitoring_loop` (src/saas_main.py:196-234).  The body
`for user in users: _check_price_changes_for_user; _check_arbitrage_for_user;
_check_whales_for_user` sits *inside* the loop-level `try`, and the sole
`except Exception` handler is at the level of the whole iteration: it logs
and sleeps, after which the `while self.running` loop continues.  `act`
abstracts the composite per-tenant processing (which may raise,
`Except.error`); the result records which tenants were reached and
processed and the exception, if one was caught by the iteration-level
handler.  The function is total: an exception never escapes the tick. -/
def monitoring_tick {υ ε : Type} (act : υ → Except ε Unit) :
    List υ → List υ × Option ε
  | [] => ([], none)
  | u :: us =>
    match act u with
    | Except.ok _ =>
      let r := monitoring_tick act us
      (u :: r.1, r.2)
    | Except.error e => ([], some e)

/-! ## Dictionary and table lemmas -/

theorem dictGet_dictInsert_self {β : Type} (d : List (String × β)) (k : String)
    (v : β) : dictGet k (dictInsert d k v) = some v := by
  induction d with
  | nil => simp [dictInsert, dictGet]
  | cons kv rest ih =>
    obtain ⟨k', v'⟩ := kv
    by_cases h : k' = k
    · simp [dictInsert, h, dictGet]
    · simp [dictInsert, h, dictGet, ih]

theorem dictGet_dictInsert_ne {β : Type} (d : List (String × β)) {k k' : String}
    (v : β) (h : k' ≠ k) : dictGet k' (dictInsert d k v) = dictGet k' d := by
  induction d with
  | nil => simp [dictInsert, dictGet, Ne.symm h]
  | cons kv rest ih =>
    obtain ⟨a, b⟩ := kv
    by_cases ha : a = k
    · subst ha
      simp [dictInsert, dictGet, Ne.symm h]
    · simp [dictInsert, ha, dictGet, ih]

theorem dictInsert_of_get_eq {β : Type} {d : List (String × β)} {k : String}
    {v : β} (h : dictGet k d = some v) : dictInsert d k v = d := by
  induction d with
  | nil => simp [dictGet] at h
  | cons kv rest ih =>
    obtain ⟨a, b⟩ := kv
    by_cases ha : a = k
    · subst ha
      simp [dictGet] at h
      simp [dictInsert, h]
    · simp [dictGet, ha] at h
      simp [dictInsert, ha, ih h]

theorem tableGet_tableInsert_self (t : QuoteTable) (s e : String)
    (pd : PriceData) : tableGet (tableInsert t s e pd) s e = some pd := by
  simp [tableGet, tableInsert, dictGet_dictInsert_self]

theorem dictGet_tableInsert_ne (t : QuoteTable) {s s' : String} (e : String)
    (pd : PriceData) (h : s' ≠ s) :
    dictGet s' (tableInsert t s e pd) = dictGet s' t := by
  simp [tableInsert, dictGet_dictInsert_ne _ _ h]

theorem tableGet_tableInsert_ne (t : QuoteTable) {s e s' e' : String}
    (pd : PriceData) (h : s' ≠ s ∨ e' ≠ e) :
    tableGet (tableInsert t s e pd) s' e' = tableGet t s' e' := by
  rcases h with h | h
  · simp [tableGet, dictGet_tableInsert_ne t e pd h]
  · by_cases hs : s' = s
    · subst hs
      simp only [tableGet, tableInsert, dictGet_dictInsert_self]
      rw [dictGet_dictInsert_ne _ _ h]
      cases hg : dictGet s' t <;> simp [hg, dictGet]
    · simp [tableGet, dictGet_tableInsert_ne t e pd hs]

theorem tableGet_tableInsert_inv {t : QuoteTable} {s e s' e' : String}
    {pd pd' : PriceData}
    (h : tableGet (tableInsert t s e pd) s' e' = some pd') :
    tableGet t s' e' = some pd' ∨ (s' = s ∧ e' = e ∧ pd' = pd) := by
  by_cases hs : s' = s
  · by_cases he : e' = e
    · subst hs; subst he
      rw [tableGet_tableInsert_self] at h
      exact Or.inr ⟨rfl, rfl, (Option.some.injEq _ _ ▸ h).symm⟩
    · rw [tableGet_tableInsert_ne t pd (Or.inr he)] at h
      exact Or.inl h
  · rw [tableGet_tableInsert_ne t pd (Or.inl hs)] at h
    exact Or.inl h

/-! ## `mergeQuotes` and `fetch_all_prices` lemmas -/

theorem mergeQuotes_nil (t : QuoteTable) (n : String) :
    mergeQuotes t n [] = t := rfl

theorem mergeQuotes_cons (t : QuoteTable) (n : String) (q : String × PriceData)
    (qs : List (String × PriceData)) :
    mergeQuotes t n (q :: qs) = mergeQuotes (tableInsert t q.1 n q.2) n qs := rfl

theorem tableGet_mergeQuotes_ne_exchange (qs : List (String × PriceData))
    {n e : String} (h : e ≠ n) : ∀ (t : QuoteTable) (s : String),
    tableGet (mergeQuotes t n qs) s e = tableGet t s e := by
  induction qs with
  | nil => intro t s; rfl
  | cons q rest ih =>
    intro t s
    rw [mergeQuotes_cons, ih, tableGet_tableInsert_ne t q.2 (Or.inr h)]

theorem dictGet_mergeQuotes_not_mem (qs : List (String × PriceData))
    {s : String} (h : s ∉ qs.map Prod.fst) : ∀ (t : QuoteTable) (n : String),
    dictGet s (mergeQuotes t n qs) = dictGet s t := by
  induction qs with
  | nil => intro t n; rfl
  | cons q rest ih =>
    intro t n
    simp only [List.map_cons, List.mem_cons, not_or] at h
    rw [mergeQuotes_cons, ih h.2, dictGet_tableInsert_ne t n q.2 h.1]

theorem tableGet_mergeQuotes_not_mem (qs : List (String × PriceData))
    {s : String} (h : s ∉ qs.map Prod.fst) (t : QuoteTable) (n e : String) :
    tableGet (mergeQuotes t n qs) s e = tableGet t s e := by
  simp [tableGet, dictGet_mergeQuotes_not_mem qs h]

theorem tableGet_mergeQuotes_mem {qs : List (String × PriceData)}
    {s : String} {pd : PriceData} (hmem : (s, pd) ∈ qs)
    (hnd : (qs.map Prod.fst).Nodup) : ∀ (t : QuoteTable) (n : String),
    tableGet (mergeQuotes t n qs) s n = some pd := by
  induction qs with
  | nil => cases hmem
  | cons q rest ih =>
    intro t n
    simp only [List.map_cons, List.nodup_cons] at hnd
    rcases List.mem_cons.mp hmem with hq | hq
    · subst hq
      rw [mergeQuotes_cons]
      have hs : s ∉ rest.map Prod.fst := hnd.1
      rw [tableGet_mergeQuotes_not_mem rest hs, tableGet_tableInsert_self]
    · exact ih hq hnd.2 _ n

theorem tableGet_mergeQuotes_inv {qs : List (String × PriceData)}
    {n s e : String} {pd : PriceData} :
    ∀ {t : QuoteTable}, tableGet (mergeQuotes t n qs) s e = some pd →
    tableGet t s e = some pd ∨ (e = n ∧ (s, pd) ∈ qs) := by
  induction qs with
  | nil => intro t h; exact Or.inl h
  | cons q rest ih =>
    intro t h
    rw [mergeQuotes_cons] at h
    rcases ih h with h' | h'
    · rcases tableGet_tableInsert_inv h' with h'' | ⟨hs, he, hpd⟩
      · exact Or.inl h''
      · subst hs; subst he; subst hpd
        exact Or.inr ⟨rfl, List.mem_cons_self _ _⟩
    · exact Or.inr ⟨h'.1, List.mem_cons_of_mem _ h'.2⟩

/-- The fold that `fetch_all_prices` applies to each of its two tables:
merge, in adapter order, the results of every adapter whose call
succeeded, skipping failed adapters. -/
def fetchMergeAll (t : QuoteTable)
    (adapterResults : List (String × Except String (List (String × PriceData)))) :
    QuoteTable :=
  adapterResults.foldl
    (fun acc ar =>
      match ar.2 with
      | Except.error _ => acc
      | Except.ok quotes => mergeQuotes acc ar.1 quotes)
    t

theorem fetchMergeAll_nil (t : QuoteTable) : fetchMergeAll t [] = t := rfl

theorem fetchMergeAll_cons (t : QuoteTable) (ar) (rest) :
    fetchMergeAll t (ar :: rest) =
      fetchMergeAll
        (match ar.2 with
         | Except.error _ => t
         | Except.ok quotes => mergeQuotes t ar.1 quotes) rest := by
  cases h : ar.2 <;> simp [fetchMergeAll, h]

theorem fetch_all_prices_eq (selfPrices : QuoteTable) (adapterResults) :
    fetch_all_prices selfPrices adapterResults =
      (fetchMergeAll [] adapterResults, fetchMergeAll selfPrices adapterResults) := by
  suffices h : ∀ ars (a b : QuoteTable),
      List.foldl
        (fun acc (ar : String × Except String (List (String × PriceData))) =>
          match ar.2 with
          | Except.error _ => acc
          | Except.ok quotes => (mergeQuotes acc.1 ar.1 quotes, mergeQuotes acc.2 ar.1 quotes))
        (a, b) ars = (fetchMergeAll a ars, fetchMergeAll b ars) by
    exact h adapterResults [] selfPrices
  intro ars
  induction ars with
  | nil => intro a b; rfl
  | cons ar rest ih =>
    intro a b
    rw [List.foldl_cons, fetchMergeAll_cons, fetchMergeAll_cons]
    cases h : ar.2 <;> simp only [h] <;> exact ih _ _

/-! ## `maxBySnd` / `minBySnd` lemmas -/

theorem maxBySnd_mem : ∀ (xs : List (String × ℚ)) (b : String × ℚ),
    maxBySnd b xs ∈ b :: xs := by
  intro xs
  induction xs with
  | nil => intro b; simp [maxBySnd]
  | cons x xs ih =>
    intro b
    simp only [maxBySnd]
    rcases List.mem_cons.mp (ih (if b.2 < x.2 then x else b)) with h | h
    · rw [h]
      split
      · exact List.mem_cons_of_mem _ (List.mem_cons_self _ _)
      · exact List.mem_cons_self _ _
    · exact List.mem_cons_of_mem _ (List.mem_cons_of_mem _ h)

theorem le_maxBySnd : ∀ (xs : List (String × ℚ)) (b y : String × ℚ),
    y ∈ b :: xs → y.2 ≤ (maxBySnd b xs).2 := by
  intro xs
  induction xs with
  | nil =>
    intro b y hy
    simp only [List.mem_singleton] at hy
    rw [hy, maxBySnd]
  | cons x xs ih =>
    intro b y hy
    simp only [maxBySnd]
    have hb : b.2 ≤ (if b.2 < x.2 then x else b).2 := by
      split
      · exact le_of_lt (by assumption)
      · exact le_refl _
    have hx : x.2 ≤ (if b.2 < x.2 then x else b).2 := by
      by_cases hc : b.2 < x.2
      · rw [if_pos hc]
      · rw [if_neg hc]; exact le_of_not_lt hc
    have htop := ih _ _ (List.mem_cons_self (if b.2 < x.2 then x else b) xs)
    rcases List.mem_cons.mp hy with h | h
    · exact h ▸ hb.trans htop
    · rcases List.mem_cons.mp h with h' | h'
      · exact h' ▸ hx.trans htop
      · exact ih _ _ (List.mem_cons_of_mem _ h')

theorem minBySnd_mem : ∀ (xs : List (String × ℚ)) (b : String × ℚ),
    minBySnd b xs ∈ b :: xs := by
  intro xs
  induction xs with
  | nil => intro b; simp [minBySnd]
  | cons x xs ih =>
    intro b
    simp only [minBySnd]
    rcases List.mem_cons.mp (ih (if x.2 < b.2 then x else b)) with h | h
    · rw [h]
      split
      · exact List.mem_cons_of_mem _ (List.mem_cons_self _ _)
      · exact List.mem_cons_self _ _
    · exact List.mem_cons_of_mem _ (List.mem_cons_of_mem _ h)

theorem minBySnd_le : ∀ (xs : List (String × ℚ)) (b y : String × ℚ),
    y ∈ b :: xs → (minBySnd b xs).2 ≤ y.2 := by
  intro xs
  induction xs with
  | nil =>
    intro b y hy
    simp only [List.mem_singleton] at hy
    rw [hy, minBySnd]
  | cons x xs ih =>
    intro b y hy
    simp only [minBySnd]
    have hb : (if x.2 < b.2 then x else b).2 ≤ b.2 := by
      split
      · exact le_of_lt (by assumption)
      · exact le_refl _
    have hx : (if x.2 < b.2 then x else b).2 ≤ x.2 := by
      by_cases hc : x.2 < b.2
      · rw [if_pos hc]
      · rw [if_neg hc]; exact le_of_not_lt hc
    have htop := ih _ _ (List.mem_cons_self (if x.2 < b.2 then x else b) xs)
    rcases List.mem_cons.mp hy with h | h
    · exact h ▸ htop.trans hb
    · rcases List.mem_cons.mp h with h' | h'
      · exact h' ▸ htop.trans hx
      · exact ih _ _ (List.mem_cons_of_mem _ h')

/-! ## Inversion of the per-symbol arbitrage computation -/

/-- Everything true of an opportunity that `checkSymbol` emits: its buy
side is the least truthy ask and its sell side the greatest truthy bid of
the symbol's quotes, the spread is positive, and its `profit_pct` is the
spread formula, at or above the requested minimum. -/
theorem checkSymbol_some {prices : QuoteTable} {m : ℚ} {symbol : String}
    {opp : ArbitrageOpportunity}
    (h : checkSymbol prices m symbol = some opp) :
    opp.symbol = symbol ∧
    ∃ data, dictGet symbol prices = some data ∧ 2 ≤ data.length ∧
      (opp.sell_exchange, opp.sell_price) ∈ bidsOf data ∧
      (∀ y ∈ bidsOf data, y.2 ≤ opp.sell_price) ∧
      (opp.buy_exchange, opp.buy_price) ∈ asksOf data ∧
      (∀ y ∈ asksOf data, opp.buy_price ≤ y.2) ∧
      opp.buy_price < opp.sell_price ∧
      opp.profit_pct = (opp.sell_price - opp.buy_price) / opp.buy_price * 100 ∧
      opp.profit_usd = opp.sell_price - opp.buy_price ∧
      m ≤ opp.profit_pct := by
  unfold checkSymbol at h
  split at h
  · cases h
  · rename_i data hget
    split at h
    · cases h
    · rename_i hlen
      split at h
      · rename_i b bs a as hbids hasks
        simp only [] at h
        split at h
        · rename_i hlt
          split at h
          · rename_i hmin
            cases h
            refine ⟨rfl, data, hget, Nat.le_of_not_lt hlen, ?_⟩
            refine ⟨hbids ▸ maxBySnd_mem bs b, ?_, hasks ▸ minBySnd_mem as a, ?_,
              hlt, rfl, rfl, hmin⟩
            · intro y hy
              exact le_maxBySnd bs b y (hbids ▸ hy)
            · intro y hy
              exact minBySnd_le as a y (hasks ▸ hy)
          · cases h
        · cases h
      · cases h

/-! ## Claim theorems: arbitrage detector -/

/-- C1: every `ArbitrageOpportunity` returned by `find_arbitrage` has its
buy price equal to the least truthy ask and its sell price equal to the
greatest truthy bid of that symbol's quotes, satisfies
`sell_price > buy_price` and
`profit_pct = (sell_price - buy_price) / buy_price * 100`, and
`profit_pct` is at or above `min_profit_pct`; nothing below the threshold
is ever returned. -/
theorem find_arbitrage_sound (prices : QuoteTable) (symbols : List String)
    (min_profit_pct : ℚ) (opp : ArbitrageOpportunity)
    (h : opp ∈ find_arbitrage prices symbols min_profit_pct) :
    opp.buy_price < opp.sell_price ∧
    opp.profit_pct = (opp.sell_price - opp.buy_price) / opp.buy_price * 100 ∧
    min_profit_pct ≤ opp.profit_pct ∧
    opp.symbol ∈ symbols ∧
    ∃ data, dictGet opp.symbol prices = some data ∧
      (opp.buy_exchange, opp.buy_price) ∈ asksOf data ∧
      (∀ y ∈ asksOf data, opp.buy_price ≤ y.2) ∧
      (opp.sell_exchange, opp.sell_price) ∈ bidsOf data ∧
      (∀ y ∈ bidsOf data, y.2 ≤ opp.sell_price) := by
  rw [find_arbitrage, List.mem_insertionSort profitGe] at h
  rcases List.mem_filterMap.mp h with ⟨s, hs, hcheck⟩
  obtain ⟨hsym, data, hget, _, hbmem, hbmax, hamem, hamin, hlt, hpct, _, hmin⟩ :=
    checkSymbol_some hcheck
  subst hsym
  exact ⟨hlt, hpct, hmin, hs, data, hget, hamem, hamin, hbmem, hbmax⟩

/-- The two-exchange scenario of spec §8: exchange A asks 100 / bids
100.10, exchange B asks 100.50 / bids 101. -/
def c1Table : QuoteTable :=
  [("BTC/USDT",
    [("A", { symbol := "BTC/USDT", price := 100, bid := some (1001/10),
             ask := some 100, exchange := "A" }),
     ("B", { symbol := "BTC/USDT", price := 101, bid := some 101,
             ask := some (201/2), exchange := "B" })])]

def c1Opp : ArbitrageOpportunity :=
  { symbol := "BTC/USDT", buy_exchange := "A", sell_exchange := "B",
    buy_price := 100, sell_price := 101, profit_pct := 1, profit_usd := 1 }

/-- Witness for C1 on the concrete spec §8 scenario. -/
theorem find_arbitrage_sound_witness :
    c1Opp ∈ find_arbitrage c1Table ["BTC/USDT"] (1/5) ∧
    (c1Opp.buy_price < c1Opp.sell_price ∧
     c1Opp.profit_pct =
       (c1Opp.sell_price - c1Opp.buy_price) / c1Opp.buy_price * 100 ∧
     (1/5 : ℚ) ≤ c1Opp.profit_pct ∧
     c1Opp.symbol ∈ ["BTC/USDT"] ∧
     ∃ data, dictGet c1Opp.symbol c1Table = some data ∧
       (c1Opp.buy_exchange, c1Opp.buy_price) ∈ asksOf data ∧
       (∀ y ∈ asksOf data, c1Opp.buy_price ≤ y.2) ∧
       (c1Opp.sell_exchange, c1Opp.sell_price) ∈ bidsOf data ∧
       (∀ y ∈ bidsOf data, y.2 ≤ c1Opp.sell_price)) :=
  ⟨by norm_num [find_arbitrage, checkSymbol, c1Table, c1Opp, dictGet, bidsOf,
      asksOf, maxBySnd, minBySnd, profitGe, List.filterMap_cons,
      List.filterMap_nil],
   find_arbitrage_sound c1Table ["BTC/USDT"] (1/5) c1Opp
    (by norm_num [find_arbitrage, checkSymbol, c1Table, c1Opp, dictGet,
        bidsOf, asksOf, maxBySnd, minBySnd, profitGe, List.filterMap_cons,
        List.filterMap_nil])⟩

/-- C6: the output of `find_arbitrage` is sorted by `profit_pct`
descending, and two opportunities of equal profit appear in the encounter
order of their symbols in the input symbol list (the sort is stable). -/
theorem find_arbitrage_sorted_stable (prices : QuoteTable)
    (symbols : List String) (m : ℚ) :
    (find_arbitrage prices symbols m).Sorted profitGe ∧
    ∀ s1 s2 a b, List.Sublist [s1, s2] symbols →
      checkSymbol prices m s1 = some a → checkSymbol prices m s2 = some b →
      a.profit_pct = b.profit_pct →
      List.Sublist [a, b] (find_arbitrage prices symbols m) := by
  constructor
  · exact List.sorted_insertionSort profitGe _
  · intro s1 s2 a b hsub h1 h2 heq
    have hfm := hsub.filterMap (checkSymbol prices m)
    have hpair : List.filterMap (checkSymbol prices m) [s1, s2] = [a, b] := by
      simp [List.filterMap_cons, h1, h2]
    rw [hpair] at hfm
    exact List.pair_sublist_insertionSort
      (show profitGe a b from le_of_eq heq.symm) hfm

/-- Two symbols, each with a two-exchange 1% spread, to exercise the
equal-profit tie-break. -/
def c6Table : QuoteTable :=
  [("X/USDT",
    [("E1", { symbol := "X/USDT", price := 100, ask := some 100,
              exchange := "E1" }),
     ("E2", { symbol := "X/USDT", price := 101, bid := some 101,
              exchange := "E2" })]),
   ("Y/USDT",
    [("E3", { symbol := "Y/USDT", price := 200, ask := some 200,
              exchange := "E3" }),
     ("E4", { symbol := "Y/USDT", price := 202, bid := some 202,
              exchange := "E4" })])]

def c6OppX : ArbitrageOpportunity :=
  { symbol := "X/USDT", buy_exchange := "E1", sell_exchange := "E2",
    buy_price := 100, sell_price := 101, profit_pct := 1, profit_usd := 1 }

def c6OppY : ArbitrageOpportunity :=
  { symbol := "Y/USDT", buy_exchange := "E3", sell_exchange := "E4",
    buy_price := 200, sell_price := 202, profit_pct := 1, profit_usd := 2 }

/-- Witness for C6: with equal 1% profits on both symbols, the pair
appears in the output in the encounter order of the symbol list. -/
theorem find_arbitrage_sorted_stable_witness :
    checkSymbol c6Table (1/2) "X/USDT" = some c6OppX ∧
    checkSymbol c6Table (1/2) "Y/USDT" = some c6OppY ∧
    c6OppX.profit_pct = c6OppY.profit_pct ∧
    List.Sublist [c6OppX, c6OppY] (find_arbitrage c6Table ["X/USDT", "Y/USDT"] (1/2)) :=
  ⟨by norm_num [checkSymbol, c6Table, c6OppX, dictGet, bidsOf, asksOf,
      maxBySnd, minBySnd, List.filterMap_cons, List.filterMap_nil],
   by simp [checkSymbol, c6Table, c6OppY, dictGet, bidsOf, asksOf,
      maxBySnd, minBySnd, List.filterMap_cons, List.filterMap_nil]
      norm_num,
   by norm_num [c6OppX, c6OppY],
   (find_arbitrage_sorted_stable c6Table ["X/USDT", "Y/USDT"] (1/2)).2
    "X/USDT" "Y/USDT" c6OppX c6OppY (List.Sublist.refl _)
    (by norm_num [checkSymbol, c6Table, c6OppX, dictGet, bidsOf, asksOf,
        maxBySnd, minBySnd, List.filterMap_cons, List.filterMap_nil])
    (by simp [checkSymbol, c6Table, c6OppY, dictGet, bidsOf, asksOf,
        maxBySnd, minBySnd, List.filterMap_cons, List.filterMap_nil]
        norm_num)
    (by norm_num [c6OppX, c6OppY])⟩

/-- C9: when one exchange simultaneously holds the greatest truthy bid and
the least truthy ask of a symbol with `bid > ask` and profit at or above
the threshold, `find_arbitrage` still emits the opportunity, with
`buy_exchange = sell_exchange` — no check excludes self-spreads. -/
theorem find_arbitrage_same_exchange (prices : QuoteTable)
    (symbols : List String) (m : ℚ) (symbol ex : String)
    (data : List (String × PriceData)) (b a : String × ℚ)
    (bs as : List (String × ℚ)) (bid ask : ℚ)
    (hsym : symbol ∈ symbols)
    (hget : dictGet symbol prices = some data)
    (hlen : ¬ data.length < 2)
    (hbids : bidsOf data = b :: bs)
    (hasks : asksOf data = a :: as)
    (hmax : maxBySnd b bs = (ex, bid))
    (hmin : minBySnd a as = (ex, ask))
    (hlt : ask < bid)
    (hm : m ≤ (bid - ask) / ask * 100) :
    ({ symbol := symbol, buy_exchange := ex, sell_exchange := ex,
       buy_price := ask, sell_price := bid,
       profit_pct := (bid - ask) / ask * 100, profit_usd := bid - ask } :
      ArbitrageOpportunity) ∈ find_arbitrage prices symbols m := by
  rw [find_arbitrage, List.mem_insertionSort profitGe]
  apply List.mem_filterMap.mpr
  refine ⟨symbol, hsym, ?_⟩
  unfold checkSymbol
  rw [hget]
  simp only [if_neg hlen, hbids, hasks, hmax, hmin]
  rw [if_pos hlt, if_pos hm]

/-- One venue (`E1`) quoting bid 110 > ask 100 against itself, a second
venue (`E2`) quoting normally. -/
def c9Table : QuoteTable :=
  [("BTC/USDT",
    [("E1", { symbol := "BTC/USDT", price := 105, bid := some 110,
              ask := some 100, exchange := "E1" }),
     ("E2", { symbol := "BTC/USDT", price := 105, bid := some 105,
              ask := some 106, exchange := "E2" })])]

/-- Witness for C9: the self-spread on `E1` is emitted with
`buy_exchange = sell_exchange = "E1"`. -/
theorem find_arbitrage_same_exchange_witness :
    ({ symbol := "BTC/USDT", buy_exchange := "E1", sell_exchange := "E1",
       buy_price := 100, sell_price := 110,
       profit_pct := ((110 : ℚ) - 100) / 100 * 100,
       profit_usd := (110 : ℚ) - 100 } :
      ArbitrageOpportunity) ∈ find_arbitrage c9Table ["BTC/USDT"] (1/2) :=
  find_arbitrage_same_exchange c9Table ["BTC/USDT"] (1/2) "BTC/USDT" "E1"
    [("E1", { symbol := "BTC/USDT", price := 105, bid := some 110,
              ask := some 100, exchange := "E1" }),
     ("E2", { symbol := "BTC/USDT", price := 105, bid := some 105,
              ask := some 106, exchange := "E2" })]
    ("E1", 110) ("E1", 100) [("E2", 105)] [("E2", 106)] 110 100
    (by simp)
    (by simp [c9Table, dictGet])
    (by norm_num)
    (by simp [bidsOf, List.filterMap_cons, List.filterMap_nil])
    (by simp [asksOf, List.filterMap_cons, List.filterMap_nil])
    (by simp [maxBySnd]
        norm_num)
    (by simp [minBySnd]
        norm_num)
    (by norm_num)
    (by norm_num)

/-! ## Claim theorems: quote aggregation -/

theorem tableGet_fetchMergeAll_ne :
    ∀ {ars : List (String × Except String (List (String × PriceData)))}
      {name : String}, name ∉ ars.map Prod.fst →
      ∀ (t : QuoteTable) (sym : String),
      tableGet (fetchMergeAll t ars) sym name = tableGet t sym name := by
  intro ars
  induction ars with
  | nil => intro name _ t sym; rfl
  | cons ar rest ih =>
    intro name hname t sym
    simp only [List.map_cons, List.mem_cons, not_or] at hname
    rw [fetchMergeAll_cons]
    cases har : ar.2 with
    | error e => simp only [har]; exact ih hname.2 t sym
    | ok qs =>
      simp only [har]
      rw [ih hname.2, tableGet_mergeQuotes_ne_exchange qs hname.1]

theorem tableGet_fetchMergeAll_ok :
    ∀ {ars : List (String × Except String (List (String × PriceData)))},
      (ars.map Prod.fst).Nodup →
      ∀ {name : String} {quotes : List (String × PriceData)},
      (name, Except.ok quotes) ∈ ars → (quotes.map Prod.fst).Nodup →
      ∀ {sym : String} {pd : PriceData}, (sym, pd) ∈ quotes →
      ∀ (t : QuoteTable),
      tableGet (fetchMergeAll t ars) sym name = some pd := by
  intro ars
  induction ars with
  | nil => intro _ name quotes hmem; cases hmem
  | cons ar rest ih =>
    intro hnd name quotes hmem hqnd sym pd hq t
    simp only [List.map_cons, List.nodup_cons] at hnd
    rcases List.mem_cons.mp hmem with heq | hmem'
    · rw [fetchMergeAll_cons]
      have har : ar.2 = Except.ok quotes := by rw [← heq]
      have hfst : ar.1 = name := by rw [← heq]
      simp only [har]
      rw [tableGet_fetchMergeAll_ne (hfst ▸ hnd.1),
        hfst, tableGet_mergeQuotes_mem hq hqnd]
    · rw [fetchMergeAll_cons]
      cases har : ar.2 with
      | error e => exact ih hnd.2 hmem' hqnd hq t
      | ok qs => exact ih hnd.2 hmem' hqnd hq _

theorem dictGet_fetchMergeAll_not_contrib :
    ∀ {ars : List (String × Except String (List (String × PriceData)))}
      {sym : String},
      (∀ name quotes, (name, Except.ok quotes) ∈ ars →
        sym ∉ quotes.map Prod.fst) →
      ∀ (t : QuoteTable),
      dictGet sym (fetchMergeAll t ars) = dictGet sym t := by
  intro ars
  induction ars with
  | nil => intro sym _ t; rfl
  | cons ar rest ih =>
    intro sym h t
    rw [fetchMergeAll_cons]
    cases har : ar.2 with
    | error e =>
      simp only [har]
      exact ih (fun n q hm => h n q (List.mem_cons_of_mem _ hm)) t
    | ok qs =>
      simp only [har]
      have hmem : (ar.1, Except.ok qs) ∈ ar :: rest := by
        have : (ar.1, Except.ok qs) = ar := Prod.ext rfl har.symm
        rw [this]; exact List.mem_cons_self _ _
      rw [ih (fun n q hm => h n q (List.mem_cons_of_mem _ hm)),
        dictGet_mergeQuotes_not_mem qs (h ar.1 qs hmem)]

/-- C7: `fetch_all_prices` tolerates failure of any subset of adapters
(its embedding is total by construction — every raised exception becomes a
skipped `Except.error` adapter): assuming distinct adapter names and
per-adapter-unique symbols (true of Python dicts), the returned table
holds every quote of every non-failing adapter at
`table[symbol][exchangeName]`, and a symbol to which no succeeding adapter
contributed is absent from the table rather than an error. -/
theorem fetch_all_prices_tolerates_failures (selfPrices : QuoteTable)
    (adapterResults : List (String × Except String (List (String × PriceData))))
    (hnd : (adapterResults.map Prod.fst).Nodup) :
    (∀ name quotes, (name, Except.ok quotes) ∈ adapterResults →
      (quotes.map Prod.fst).Nodup →
      ∀ sym pd, (sym, pd) ∈ quotes →
        tableGet (fetch_all_prices selfPrices adapterResults).1 sym name = some pd) ∧
    (∀ sym, (∀ name quotes, (name, Except.ok quotes) ∈ adapterResults →
        sym ∉ quotes.map Prod.fst) →
      dictGet sym (fetch_all_prices selfPrices adapterResults).1 = none) := by
  rw [fetch_all_prices_eq]
  constructor
  · intro name quotes hmem hqnd sym pd hq
    exact tableGet_fetchMergeAll_ok hnd hmem hqnd hq []
  · intro sym habs
    rw [dictGet_fetchMergeAll_not_contrib habs []]
    rfl

def c7Quote : PriceData :=
  { symbol := "BTC/USDT", price := 100, bid := some 100, ask := some 100,
    exchange := "binance" }

/-- Two of three adapters fail or return nothing; the quote of the
succeeding adapter is still served, and an uncovered symbol is absent. -/
def c7Results : List (String × Except String (List (String × PriceData))) :=
  [("binance", Except.ok [("BTC/USDT", c7Quote)]),
   ("coinbase", Except.error "timeout"),
   ("kraken", Except.ok [])]

/-- Witness for C7 on a concrete partial-failure cycle. -/
theorem fetch_all_prices_tolerates_failures_witness :
    tableGet (fetch_all_prices [] c7Results).1 "BTC/USDT" "binance" = some c7Quote ∧
    dictGet "ETH/USDT" (fetch_all_prices [] c7Results).1 = none :=
  ⟨(fetch_all_prices_tolerates_failures [] c7Results (by simp [c7Results])).1
      "binance" [("BTC/USDT", c7Quote)] (by simp [c7Results]) (by simp)
      "BTC/USDT" c7Quote (by simp),
   (fetch_all_prices_tolerates_failures [] c7Results (by simp [c7Results])).2
      "ETH/USDT"
      (by
        intro name quotes hmem
        simp only [c7Results, List.mem_cons, List.not_mem_nil, or_false] at hmem
        rcases hmem with h | h | h
        · have hq : quotes = [("BTC/USDT", c7Quote)] :=
            Except.ok.inj (Prod.ext_iff.mp h).2
          rw [hq]
          simp
        · exact absurd (Prod.ext_iff.mp h).2 (by simp)
        · have hq : quotes = [] := Except.ok.inj (Prod.ext_iff.mp h).2
          rw [hq]
          simp)⟩

theorem tableGet_fetchMergeAll_inv :
    ∀ {ars : List (String × Except String (List (String × PriceData)))}
      {t : QuoteTable} {sym ex : String} {pd : PriceData},
      tableGet (fetchMergeAll t ars) sym ex = some pd →
      tableGet t sym ex = some pd ∨
        ∃ qs, (ex, Except.ok qs) ∈ ars ∧ (sym, pd) ∈ qs := by
  intro ars
  induction ars with
  | nil => intro t sym ex pd h; exact Or.inl h
  | cons ar rest ih =>
    intro t sym ex pd h
    rw [fetchMergeAll_cons] at h
    cases har : ar.2 with
    | error e =>
      rw [har] at h
      rcases ih h with h' | ⟨qs, hm, hq⟩
      · exact Or.inl h'
      · exact Or.inr ⟨qs, List.mem_cons_of_mem _ hm, hq⟩
    | ok qs0 =>
      rw [har] at h
      rcases ih h with h' | ⟨qs, hm, hq⟩
      · rcases tableGet_mergeQuotes_inv h' with h'' | ⟨hex, hmem⟩
        · exact Or.inl h''
        · refine Or.inr ⟨qs0, ?_, hmem⟩
          have : (ex, Except.ok qs0) = ar := Prod.ext hex har.symm
          rw [this]
          exact List.mem_cons_self _ _
      · exact Or.inr ⟨qs, List.mem_cons_of_mem _ hm, hq⟩

/-- C3 (amended): the table *returned* by `fetch_all_prices` is rebuilt
from scratch each call — every entry of it was produced by some succeeding
adapter of that call. -/
theorem fetch_all_prices_returned_fresh (selfPrices : QuoteTable)
    (adapterResults : List (String × Except String (List (String × PriceData))))
    (sym ex : String) (pd : PriceData)
    (h : tableGet (fetch_all_prices selfPrices adapterResults).1 sym ex = some pd) :
    ∃ quotes, (ex, Except.ok quotes) ∈ adapterResults ∧ (sym, pd) ∈ quotes := by
  rw [fetch_all_prices_eq] at h
  rcases tableGet_fetchMergeAll_inv h with h' | h'
  · simp [tableGet, dictGet] at h'
  · exact h'

def c3StaleBinance : PriceData :=
  { symbol := "BTC/USDT", price := 100, bid := some (201/2),
    ask := some 100, exchange := "binance" }

def c3StaleKraken : PriceData :=
  { symbol := "BTC/USDT", price := 102, bid := some 102,
    ask := some 103, exchange := "kraken" }

/-- The cumulative `self.prices` contents left over from an earlier cycle. -/
def c3Prices0 : QuoteTable :=
  [("BTC/USDT", [("binance", c3StaleBinance), ("kraken", c3StaleKraken)])]

/-- A current cycle in which *no* exchange returns any quote (all five
adapters succeed with empty results). -/
def c3Results : List (String × Except String (List (String × PriceData))) :=
  [("binance", Except.ok []), ("coinbase", Except.ok []),
   ("kraken", Except.ok []), ("bybit", Except.ok []),
   ("kucoin", Except.ok [])]

/-- C3 as stated is false: after a `fetch_all_prices` call to which no
exchange contributed any quote, the table `find_arbitrage` reads (the
monitor's cumulative `self.prices`, the second component) still contains
the previous cycle's `binance` entry for `BTC/USDT` — and the detector
emits an opportunity built entirely from stale quotes. -/
theorem quote_table_rebuilt_counterexample :
    tableGet (fetch_all_prices c3Prices0 c3Results).2 "BTC/USDT" "binance" =
      some c3StaleBinance ∧
    find_arbitrage (fetch_all_prices c3Prices0 c3Results).2 ["BTC/USDT"] (1/2) =
      [{ symbol := "BTC/USDT", buy_exchange := "binance",
         sell_exchange := "kraken", buy_price := 100, sell_price := 102,
         profit_pct := 2, profit_usd := 2 }] := by
  constructor
  · simp [fetch_all_prices, c3Prices0, c3Results, mergeQuotes, tableGet,
      dictGet, c3StaleBinance]
  · simp [fetch_all_prices, c3Prices0, c3Results, mergeQuotes, find_arbitrage,
      checkSymbol, dictGet, bidsOf, asksOf, maxBySnd, minBySnd, profitGe,
      c3StaleBinance, c3StaleKraken, List.filterMap_cons, List.filterMap_nil]
    norm_num

def c3FreshQuote : PriceData :=
  { symbol := "BTC/USDT", price := 101, bid := some 101, ask := some 101,
    exchange := "binance" }

def c3WitResults : List (String × Except String (List (String × PriceData))) :=
  [("binance", Except.ok [("BTC/USDT", c3FreshQuote)])]

/-- Witness for the amended C3. -/
theorem fetch_all_prices_returned_fresh_witness :
    tableGet (fetch_all_prices c3Prices0 c3WitResults).1 "BTC/USDT" "binance" =
      some c3FreshQuote ∧
    ∃ quotes, ("binance", Except.ok quotes) ∈ c3WitResults ∧
      ("BTC/USDT", c3FreshQuote) ∈ quotes :=
  ⟨by simp [fetch_all_prices, c3Prices0, c3WitResults, mergeQuotes,
      tableInsert, tableGet, dictGet, dictInsert, c3FreshQuote],
   fetch_all_prices_returned_fresh c3Prices0 c3WitResults "BTC/USDT" "binance"
    c3FreshQuote
    (by simp [fetch_all_prices, c3Prices0, c3WitResults, mergeQuotes,
        tableInsert, tableGet, dictGet, dictInsert, c3FreshQuote])⟩

/-! ## Claim theorems: price-change detection -/

theorem priceStep_snd_self {th : ℚ}
    (acc : List PriceChangeEvent × List (String × ℚ))
    (entry : String × List (String × PriceData)) (hne : entry.2 ≠ []) :
    dictGet entry.1 (priceStep th acc entry).2 = some (avgPrice entry.2) := by
  simp only [priceStep, if_neg hne]
  exact dictGet_dictInsert_self _ _ _

theorem priceStep_snd_other {th : ℚ}
    (acc : List PriceChangeEvent × List (String × ℚ))
    (entry : String × List (String × PriceData)) {s : String}
    (h : s ≠ entry.1) :
    dictGet s (priceStep th acc entry).2 = dictGet s acc.2 := by
  by_cases hne : entry.2 = []
  · simp only [priceStep, if_pos hne]
  · simp only [priceStep, if_neg hne]
    exact dictGet_dictInsert_ne _ _ h

theorem check_fold_snd_not_mem {th : ℚ} :
    ∀ (l : QuoteTable) (acc : List PriceChangeEvent × List (String × ℚ))
      {s : String}, s ∉ l.map Prod.fst →
      dictGet s (l.foldl (priceStep th) acc).2 = dictGet s acc.2 := by
  intro l
  induction l with
  | nil => intro acc s _; rfl
  | cons x rest ih =>
    intro acc s hs
    simp only [List.map_cons, List.mem_cons, not_or] at hs
    rw [List.foldl_cons, ih _ hs.2, priceStep_snd_other _ _ hs.1]

theorem check_fold_baseline {th : ℚ} :
    ∀ (l : QuoteTable) (acc : List PriceChangeEvent × List (String × ℚ)),
      (l.map Prod.fst).Nodup →
      ∀ e ∈ l, e.2 ≠ [] →
      dictGet e.1 (l.foldl (priceStep th) acc).2 = some (avgPrice e.2) := by
  intro l
  induction l with
  | nil => intro acc _ e he; cases he
  | cons x rest ih =>
    intro acc hnd e he hne
    simp only [List.map_cons, List.nodup_cons] at hnd
    rcases List.mem_cons.mp he with heq | hmem
    · subst heq
      rw [List.foldl_cons, check_fold_snd_not_mem rest _ hnd.1,
        priceStep_snd_self _ _ hne]
    · rw [List.foldl_cons]
      exact ih _ hnd.2 e hmem hne

theorem check_fold_no_new_events {th : ℚ} (hth : 0 < th) :
    ∀ (l : QuoteTable) (acc : List PriceChangeEvent × List (String × ℚ)),
      (∀ e ∈ l, e.2 ≠ [] → dictGet e.1 acc.2 = some (avgPrice e.2)) →
      l.foldl (priceStep th) acc = acc := by
  intro l
  induction l with
  | nil => intro acc _; rfl
  | cons x rest ih =>
    intro acc h
    have hstep : priceStep th acc x = acc := by
      by_cases hx : x.2 = []
      · simp [priceStep, hx]
      · have hget := h x (List.mem_cons_self _ _) hx
        simp only [priceStep, if_neg hx, hget]
        have hchange : (avgPrice x.2 - avgPrice x.2) / avgPrice x.2 * 100 = 0 := by
          rw [sub_self, zero_div, zero_mul]
        rw [hchange, if_neg (by simpa using not_le.mpr hth),
          dictInsert_of_get_eq hget]
    rw [List.foldl_cons, hstep]
    exact ih acc (fun e he hne => h e (List.mem_cons_of_mem _ he) hne)

/-- C5 (amended): the rolling baseline is overwritten with the current
average for every monitored symbol present in the table with nonempty
exchange data, whether or not an event fired; and — provided the
configured threshold is strictly positive — a second run on the same
table emits no event, because each baseline already equals the current
average.  The positivity hypotheses on quotes and stored baselines are
the data model's `price > 0` (they rule out Python's
`ZeroDivisionError`, which ℚ's total division would otherwise mask). -/
theorem check_price_changes_idempotent (prices : QuoteTable)
    (previous_prices : List (String × ℚ)) (threshold : ℚ)
    (hnd : (prices.map Prod.fst).Nodup)
    (hpos : ∀ e ∈ prices, ∀ q ∈ e.2, 0 < q.2.price)
    (hprev : ∀ p ∈ previous_prices, (0 : ℚ) < p.2)
    (hth : 0 < threshold) :
    (∀ e ∈ prices, e.2 ≠ [] →
      dictGet e.1 (check_price_changes prices previous_prices threshold).2 =
        some (avgPrice e.2)) ∧
    (check_price_changes prices
      (check_price_changes prices previous_prices threshold).2 threshold).1 = [] := by
  have hbase : ∀ e ∈ prices, e.2 ≠ [] →
      dictGet e.1 (check_price_changes prices previous_prices threshold).2 =
        some (avgPrice e.2) :=
    fun e he hne => check_fold_baseline prices _ hnd e he hne
  refine ⟨hbase, ?_⟩
  rw [check_price_changes,
    check_fold_no_new_events hth prices
      ([], (check_price_changes prices previous_prices threshold).2)
      (fun e he hne => hbase e he hne)]

def c5Quote : PriceData :=
  { symbol := "BTC/USDT", price := 100, bid := some 100, ask := some 100,
    exchange := "binance" }

def c5Table : QuoteTable := [("BTC/USDT", [("binance", c5Quote)])]

/-- C5 as universally stated is false at threshold 0: the comparison is
`abs(change_pct) >= threshold`, so with a zero threshold the second run
re-emits an event of zero change for every monitored symbol. -/
theorem check_price_changes_idempotent_counterexample :
    (check_price_changes c5Table (check_price_changes c5Table [] 0).2 0).1 =
      [{ symbol := "BTC/USDT", current_price := 100, change_pct := 0,
         threshold_pct := 0 }] := by
  simp [check_price_changes, priceStep, c5Table, c5Quote, avgPrice, dictGet,
    dictInsert, List.foldl_cons, List.foldl_nil]

/-- Witness for the amended C5 at the default 3% threshold. -/
theorem check_price_changes_idempotent_witness :
    dictGet "BTC/USDT" (check_price_changes c5Table [] 3).2 =
      some (avgPrice [("binance", c5Quote)]) ∧
    (check_price_changes c5Table (check_price_changes c5Table [] 3).2 3).1 = [] :=
  ⟨(check_price_changes_idempotent c5Table [] 3
      (by simp [c5Table])
      (by intro e he q hq
          simp only [c5Table, List.mem_singleton] at he
          subst he
          simp only [List.mem_singleton] at hq
          subst hq
          norm_num [c5Quote])
      (by simp)
      (by norm_num)).1
    ("BTC/USDT", [("binance", c5Quote)]) (by simp [c5Table]) (by simp),
   (check_price_changes_idempotent c5Table [] 3
      (by simp [c5Table])
      (by intro e he q hq
          simp only [c5Table, List.mem_singleton] at he
          subst he
          simp only [List.mem_singleton] at hq
          subst hq
          norm_num [c5Quote])
      (by simp)
      (by norm_num)).2⟩

/-! ## Claim theorems: the SaaS monitoring tick -/

/-- C2 (amended): the iteration-level `except` of `_monitoring_loop`
catches any exception from per-tenant processing (the tick function is
total — the exception comes back as data, never escapes, and the loop
proceeds to its next iteration); tenants before the failing one in that
tick are processed, but the remaining tenants of the same tick are
skipped. -/
theorem monitoring_tick_error_containment {υ ε : Type}
    (act : υ → Except ε Unit) :
    (∀ users, (∀ u ∈ users, act u = Except.ok ()) →
      monitoring_tick act users = (users, none)) ∧
    (∀ us1 (u : υ) us2 (e : ε), (∀ v ∈ us1, act v = Except.ok ()) →
      act u = Except.error e →
      monitoring_tick act (us1 ++ u :: us2) = (us1, some e)) := by
  constructor
  · intro users h
    induction users with
    | nil => rfl
    | cons v rest ih =>
      simp [monitoring_tick, h v (List.mem_cons_self _ _),
        ih (fun u hu => h u (List.mem_cons_of_mem _ hu))]
  · intro us1 u us2 e h1 h2
    induction us1 with
    | nil => simp [monitoring_tick, h2]
    | cons v rest ih =>
      simp [monitoring_tick, h1 v (List.mem_cons_self _ _),
        ih (fun w hw => h1 w (List.mem_cons_of_mem _ hw))]

/-- An abstract per-tenant action that raises on tenant `"alice"` and
would succeed on anyone else. -/
def c2Act : String → Except String Unit :=
  fun u => if u = "alice" then Except.error "boom" else Except.ok ()

/-- C2 as stated is false: when processing of the first tenant raises,
the remaining active tenant `"bob"` of the same tick is *not* processed —
the tick ends with only the exception logged. -/
theorem monitoring_tick_counterexample :
    monitoring_tick c2Act ["alice", "bob"] = ([], some "boom") ∧
    "bob" ∉ (monitoring_tick c2Act ["alice", "bob"]).1 := by
  constructor <;> simp [monitoring_tick, c2Act]

/-- An action failing on `"dave"` only. -/
def c2ActW : String → Except String Unit :=
  fun u => if u = "dave" then Except.error "boom" else Except.ok ()

/-- Witness for the amended C2: the prefix before the failing tenant is
processed and the error is caught; a tick of healthy tenants processes
everyone. -/
theorem monitoring_tick_error_containment_witness :
    monitoring_tick c2ActW ["carol", "dave", "erin"] = (["carol"], some "boom") ∧
    monitoring_tick c2ActW ["carol", "erin"] = (["carol", "erin"], none) :=
  ⟨(monitoring_tick_error_containment c2ActW).2 ["carol"] "dave" ["erin"] "boom"
    (by intro v hv
        simp only [List.mem_singleton] at hv
        subst hv
        simp [c2ActW])
    (by simp [c2ActW]),
   (monitoring_tick_error_containment c2ActW).1 ["carol", "erin"]
    (by intro v hv
        rcases List.mem_cons.mp hv with h | h
        · subst h; simp [c2ActW]
        · simp only [List.mem_singleton] at h
          subst h; simp [c2ActW])⟩

/-! ## Claim theorems: alert deduplication and dispatch -/

theorem send_alert_suppressed_eq_cond (m : AlertManager) (ty : AlertType)
    (symbol message data severity : String) (dk : Option String) (now : Int)
    (tg dc : Bool) :
    (send_alert m ty symbol message data severity dk now tg dc).suppressed =
      (dk.isSome && is_duplicate m
        (generate_alert_id ty symbol (dk.getD (severity ++ "_" ++ toString now)) now)
        now) := by
  simp only [send_alert]
  split
  · rename_i h; rw [h]
  · rename_i h
    simp only [Bool.not_eq_true] at h
    rw [h]
    split <;> rfl

theorem send_alert_dup_suppressed (m : AlertManager) (ty : AlertType)
    (symbol message data severity k : String) (now : Int) (tg dc : Bool)
    (hd : is_duplicate m (generate_alert_id ty symbol k now) now = true) :
    send_alert m ty symbol message data severity (some k) now tg dc =
      { retval := false, state := m, suppressed := true,
        telegram_invoked := false, discord_invoked := false,
        callbacks_invoked := 0, console_fallback := false } := by
  simp [send_alert, hd]

theorem send_alert_not_dup_effects (m : AlertManager) (ty : AlertType)
    (symbol message data severity k : String) (now : Int) (tg dc : Bool)
    (hnd : is_duplicate m (generate_alert_id ty symbol k now) now = false) :
    (send_alert m ty symbol message data severity (some k) now tg dc).suppressed
      = false ∧
    (send_alert m ty symbol message data severity (some k) now tg dc).state =
      { m with
        alert_history :=
          dictInsert m.alert_history (generate_alert_id ty symbol k now) now,
        sent_alerts := m.sent_alerts ++
          [{ id := generate_alert_id ty symbol k now, type := ty,
             symbol := symbol, message := message, data := data,
             severity := severity, timestamp := now }] } ∧
    (send_alert m ty symbol message data severity (some k) now tg dc).telegram_invoked
      = m.telegram_configured ∧
    (send_alert m ty symbol message data severity (some k) now tg dc).discord_invoked
      = m.discord_configured := by
  have hc : ((some k).isSome &&
      is_duplicate m
        (generate_alert_id ty symbol
          ((some k).getD (severity ++ "_" ++ toString now)) now) now) = false := by
    simp [hnd]
  simp only [send_alert, hc, Bool.false_eq_true, if_false]
  split <;> exact ⟨rfl, rfl, rfl, rfl⟩

/-- C4: `_is_duplicate` is true exactly when a ledger entry exists whose
last-sent time is strictly within the cooldown window; consequently, of
three `send_alert` calls with the same `(type, symbol, dedup_key)` on the
same calendar day — the second within the cooldown of the first, the
third at or past it — the first is dispatched, the second is suppressed
without touching any state, and the third is dispatched again. -/
theorem alert_dedup_cooldown (m : AlertManager) (ty : AlertType)
    (symbol message data severity k : String) (t1 t2 t3 : Int)
    (tg1 dc1 tg2 dc2 tg3 dc3 : Bool) (r1 r2 r3 : SendAlertResult)
    (hfresh : dictGet (generate_alert_id ty symbol k t1) m.alert_history = none)
    (hday2 : dayOf t2 = dayOf t1) (hday3 : dayOf t3 = dayOf t1)
    (h12 : t2 - t1 < m.cooldown_minutes * 60)
    (h13 : m.cooldown_minutes * 60 ≤ t3 - t1)
    (hr1 : r1 = send_alert m ty symbol message data severity (some k) t1 tg1 dc1)
    (hr2 : r2 = send_alert r1.state ty symbol message data severity (some k) t2 tg2 dc2)
    (hr3 : r3 = send_alert r2.state ty symbol message data severity (some k) t3 tg3 dc3) :
    (∀ alert_id now, is_duplicate m alert_id now = true ↔
      ∃ last_sent, dictGet alert_id m.alert_history = some last_sent ∧
        now - last_sent < m.cooldown_minutes * 60) ∧
    r1.suppressed = false ∧
    r2.suppressed = true ∧ r2.retval = false ∧ r2.state = r1.state ∧
    r3.suppressed = false ∧
    r1.telegram_invoked = m.telegram_configured ∧
    r2.telegram_invoked = false ∧
    r3.telegram_invoked = m.telegram_configured := by
  have hiff : ∀ alert_id now, is_duplicate m alert_id now = true ↔
      ∃ last_sent, dictGet alert_id m.alert_history = some last_sent ∧
        now - last_sent < m.cooldown_minutes * 60 := by
    intro alert_id now
    unfold is_duplicate
    split
    · rename_i heq; simp [heq]
    · rename_i last heq; simp [heq]
  have hid2 : generate_alert_id ty symbol k t2 = generate_alert_id ty symbol k t1 := by
    unfold generate_alert_id; rw [hday2]
  have hid3 : generate_alert_id ty symbol k t3 = generate_alert_id ty symbol k t1 := by
    unfold generate_alert_id; rw [hday3]
  have hnd1 : is_duplicate m (generate_alert_id ty symbol k t1) t1 = false := by
    unfold is_duplicate; rw [hfresh]
  obtain ⟨hs1, hst1, htg1, _⟩ :=
    send_alert_not_dup_effects m ty symbol message data severity k t1 tg1 dc1 hnd1
  rw [← hr1] at hs1 hst1 htg1
  have hhist1 : dictGet (generate_alert_id ty symbol k t1) r1.state.alert_history
      = some t1 := by
    rw [hst1]; exact dictGet_dictInsert_self _ _ _
  have hcool1 : r1.state.cooldown_minutes = m.cooldown_minutes := by rw [hst1]
  have hd2 : is_duplicate r1.state (generate_alert_id ty symbol k t2) t2 = true := by
    unfold is_duplicate
    rw [hid2, hhist1, hcool1]
    exact decide_eq_true h12
  have hr2eq : r2 = ⟨false, r1.state, true, false, false, 0, false⟩ := by
    rw [hr2, send_alert_dup_suppressed _ _ _ _ _ _ _ _ _ _ hd2]
  have hnd3 : is_duplicate r2.state (generate_alert_id ty symbol k t3) t3 = false := by
    unfold is_duplicate
    rw [hr2eq]
    simp only
    rw [hid3, hhist1, hcool1]
    exact decide_eq_false (not_lt.mpr h13)
  obtain ⟨hs3, _, htg3, _⟩ :=
    send_alert_not_dup_effects r2.state ty symbol message data severity k t3 tg3 dc3 hnd3
  rw [← hr3] at hs3 htg3
  have htgcfg : r2.state.telegram_configured = m.telegram_configured := by
    rw [hr2eq]; simp only; rw [hst1]
  refine ⟨hiff, hs1, by rw [hr2eq], by rw [hr2eq], by rw [hr2eq], hs3, htg1,
    by rw [hr2eq], by rw [htg3, htgcfg]⟩

def c4Manager : AlertManager :=
  { telegram_configured := true, discord_configured := false,
    cooldown_minutes := 15, alert_history := [], sent_alerts := [],
    num_callbacks := 0 }

/-- Witness for C4: three whale alerts with the same dedup key at
t, t+60s and t+900s against a 15-minute cooldown. -/
theorem alert_dedup_cooldown_witness :
    (send_alert c4Manager AlertType.whale_movement "BTC" "msg" "payload"
      "critical" (some "whale_txhash") 1000000 true false).suppressed = false ∧
    (send_alert (send_alert c4Manager AlertType.whale_movement "BTC" "msg"
        "payload" "critical" (some "whale_txhash") 1000000 true false).state
      AlertType.whale_movement "BTC" "msg" "payload" "critical"
      (some "whale_txhash") 1000060 true false).suppressed = true ∧
    (send_alert (send_alert (send_alert c4Manager AlertType.whale_movement
          "BTC" "msg" "payload" "critical" (some "whale_txhash") 1000000
          true false).state
        AlertType.whale_movement "BTC" "msg" "payload" "critical"
        (some "whale_txhash") 1000060 true false).state
      AlertType.whale_movement "BTC" "msg" "payload" "critical"
      (some "whale_txhash") 1000900 true false).suppressed = false := by
  obtain ⟨-, h1, h2, -, -, h3, -, -, -⟩ :=
    alert_dedup_cooldown c4Manager AlertType.whale_movement "BTC" "msg"
      "payload" "critical" "whale_txhash" 1000000 1000060 1000900
      true false true false true false _ _ _
      (by rfl) (by decide) (by decide) (by decide) (by decide)
      rfl rfl rfl
  exact ⟨h1, h2, h3⟩

/-- C8: with no sink configured and no observer registered, a
non-suppressed `send_alert` prints the console fallback and returns
`True` — the alert is not silently lost. -/
theorem send_alert_console_fallback (m : AlertManager) (ty : AlertType)
    (symbol message data severity : String) (dk : Option String) (now : Int)
    (tg dc : Bool)
    (hsup : (send_alert m ty symbol message data severity dk now tg dc).suppressed
      = false)
    (htel : m.telegram_configured = false)
    (hdis : m.discord_configured = false)
    (hcb : m.num_callbacks = 0) :
    (send_alert m ty symbol message data severity dk now tg dc).console_fallback
      = true ∧
    (send_alert m ty symbol message data severity dk now tg dc).retval = true := by
  rw [send_alert_suppressed_eq_cond] at hsup
  simp [send_alert, hsup, htel, hdis, hcb]

def c8Manager : AlertManager :=
  { telegram_configured := false, discord_configured := false,
    cooldown_minutes := 15, alert_history := [], sent_alerts := [],
    num_callbacks := 0 }

/-- Witness for C8 in a fully unconfigured deployment. -/
theorem send_alert_console_fallback_witness :
    (send_alert c8Manager AlertType.price_change "BTC/USDT" "msg" "payload"
      "info" (some "price_change_BTC/USDT") 1000000 false false).console_fallback
      = true ∧
    (send_alert c8Manager AlertType.price_change "BTC/USDT" "msg" "payload"
      "info" (some "price_change_BTC/USDT") 1000000 false false).retval = true :=
  send_alert_console_fallback c8Manager AlertType.price_change "BTC/USDT"
    "msg" "payload" "info" (some "price_change_BTC/USDT") 1000000 false false
    (by rw [send_alert_suppressed_eq_cond]; rfl)
    rfl rfl rfl

/-- C10: a suppressed `send_alert` returns `False` and changes nothing —
manager state (so the ledger keeps the timestamp of the last *delivered*
alert), sinks, callbacks, console, and `get_alert_stats` are all
untouched; and a call with `dedup_key=None` is never suppressed. -/
theorem send_alert_suppression_atomic (m : AlertManager) (ty : AlertType)
    (symbol message data severity : String) (dk : Option String) (now : Int)
    (tg dc : Bool) (r : SendAlertResult)
    (hr : r = send_alert m ty symbol message data severity dk now tg dc) :
    (r.suppressed = true →
      r.retval = false ∧ r.state = m ∧ r.telegram_invoked = false ∧
      r.discord_invoked = false ∧ r.callbacks_invoked = 0 ∧
      r.console_fallback = false ∧
      ∀ t, get_alert_stats r.state t = get_alert_stats m t) ∧
    (dk = none → r.suppressed = false) := by
  constructor
  · intro hsup
    have hc : (dk.isSome && is_duplicate m
        (generate_alert_id ty symbol (dk.getD (severity ++ "_" ++ toString now)) now)
        now) = true := by
      rw [← send_alert_suppressed_eq_cond m ty symbol message data severity dk now tg dc,
        ← hr, hsup]
    have : r = ⟨false, m, true, false, false, 0, false⟩ := by
      rw [hr]; simp [send_alert, hc]
    rw [this]
    exact ⟨rfl, rfl, rfl, rfl, rfl, rfl, fun t => rfl⟩
  · intro hnone
    rw [hr, send_alert_suppressed_eq_cond, hnone]
    rfl

def c10Manager : AlertManager :=
  { telegram_configured := true, discord_configured := false,
    cooldown_minutes := 15,
    alert_history := [("whale_BTC_whale_txhash_11", 1000000)],
    sent_alerts := [], num_callbacks := 3 }

/-- Witness for C10: a duplicate within cooldown is suppressed with the
state unchanged; the same call with `dedup_key=None` is not suppressed. -/
theorem send_alert_suppression_atomic_witness :
    (send_alert c10Manager AlertType.whale_movement "BTC" "msg" "payload"
      "critical" (some "whale_txhash") 1000060 true false).suppressed = true ∧
    (send_alert c10Manager AlertType.whale_movement "BTC" "msg" "payload"
      "critical" (some "whale_txhash") 1000060 true false).state = c10Manager ∧
    (send_alert c10Manager AlertType.whale_movement "BTC" "msg" "payload"
      "critical" none 1000060 true false).suppressed = false := by
  have h := send_alert_suppression_atomic c10Manager AlertType.whale_movement
    "BTC" "msg" "payload" "critical" (some "whale_txhash") 1000060 true false
    _ rfl
  have hn := send_alert_suppression_atomic c10Manager AlertType.whale_movement
    "BTC" "msg" "payload" "critical" none 1000060 true false _ rfl
  have hsup : (send_alert c10Manager AlertType.whale_movement "BTC" "msg"
      "payload" "critical" (some "whale_txhash") 1000060 true false).suppressed
      = true := by
    rw [send_alert_suppressed_eq_cond]
    decide
  exact ⟨hsup, (h.1 hsup).2.1, hn.2 rfl⟩
